import Mathlib

/-!
Verification of the adaptive multi-criteria training-convergence controller
("Early Stopping") of this repository.

The repository ships only the design documentation of the controller
(src/gpu/docs/early_stopping.md and the project report, which contain the
code fragments for improvement testing, the stop-decision cascade, plateau
detection, overfitting detection and adaptive patience); the standalone
implementation file itself is not part of the source tree.  The model below
is therefore built from those documentation code fragments where they exist
and from the specification where they do not; every definition says which.

Metric values are modelled as exact rational numbers.  All rational
arithmetic used inside the model is written with `mkRat` and the `num`/`den`
projections so that every operation reduces inside the kernel, which lets
concrete controller runs be checked with `decide`.  Bridge lemmas relate
these operations to the ordinary field operations on `ℚ` for the abstract
theorems.
-/

namespace EarlyStopping

/-- Kernel-computable addition on `ℚ` (same value as `+`, see `qadd_eq`). -/
def qadd (a b : ℚ) : ℚ := mkRat (a.num * b.den + b.num * a.den) (a.den * b.den)

/-- Kernel-computable subtraction on `ℚ` (same value as `-`, see `qsub_eq`). -/
def qsub (a b : ℚ) : ℚ := mkRat (a.num * b.den - b.num * a.den) (a.den * b.den)

/-- Kernel-computable multiplication on `ℚ` (same value as `*`, see `qmul_eq`). -/
def qmul (a b : ℚ) : ℚ := mkRat (a.num * b.num) (a.den * b.den)

/-- Kernel-computable division of a rational by a natural number. -/
def qdivNat (a : ℚ) (n : Nat) : ℚ := mkRat a.num (a.den * n)

/-- Kernel-computable strict-order test on `ℚ` (agrees with `<`, see `qlt_iff`). -/
def qlt (a b : ℚ) : Bool := decide (a.num * b.den < b.num * a.den)

/-- Kernel-computable sum of a list of rationals (agrees with `List.sum`). -/
def qsum : List ℚ → ℚ
  | [] => 0
  | x :: xs => qadd x (qsum xs)

theorem qadd_eq (a b : ℚ) : qadd a b = a + b := by
  have ha : ((a.den : ℚ)) ≠ 0 := by exact_mod_cast a.den_ne_zero
  have hb : ((b.den : ℚ)) ≠ 0 := by exact_mod_cast b.den_ne_zero
  conv_rhs => rw [← Rat.num_div_den a, ← Rat.num_div_den b]
  rw [qadd, Rat.mkRat_eq_divInt, Rat.divInt_eq_div, div_add_div _ _ ha hb]
  push_cast
  ring

theorem qsub_eq (a b : ℚ) : qsub a b = a - b := by
  have ha : ((a.den : ℚ)) ≠ 0 := by exact_mod_cast a.den_ne_zero
  have hb : ((b.den : ℚ)) ≠ 0 := by exact_mod_cast b.den_ne_zero
  conv_rhs => rw [← Rat.num_div_den a, ← Rat.num_div_den b]
  rw [qsub, Rat.mkRat_eq_divInt, Rat.divInt_eq_div, div_sub_div _ _ ha hb]
  push_cast
  ring

theorem qmul_eq (a b : ℚ) : qmul a b = a * b := by
  have ha : ((a.den : ℚ)) ≠ 0 := by exact_mod_cast a.den_ne_zero
  have hb : ((b.den : ℚ)) ≠ 0 := by exact_mod_cast b.den_ne_zero
  conv_rhs => rw [← Rat.num_div_den a, ← Rat.num_div_den b]
  rw [qmul, Rat.mkRat_eq_divInt, Rat.divInt_eq_div, div_mul_div_comm]
  push_cast
  ring

theorem qdivNat_eq (a : ℚ) (n : Nat) : qdivNat a n = a / (n : ℚ) := by
  conv_rhs => rw [← Rat.num_div_den a]
  rw [qdivNat, Rat.mkRat_eq_divInt, Rat.divInt_eq_div, div_div]
  push_cast
  ring_nf

theorem qlt_iff (a b : ℚ) : qlt a b = true ↔ a < b := by
  have ha : (0 : ℚ) < (a.den : ℚ) := by exact_mod_cast a.den_pos
  have hb : (0 : ℚ) < (b.den : ℚ) := by exact_mod_cast b.den_pos
  rw [qlt, decide_eq_true_iff]
  rw [show (a.num * (b.den : Int) < b.num * (a.den : Int)) ↔
      ((a.num : ℚ) * (b.den : ℚ) < (b.num : ℚ) * (a.den : ℚ)) by exact_mod_cast Iff.rfl]
  rw [← div_lt_div_iff₀ ha hb, Rat.num_div_den, Rat.num_div_den]

theorem qsum_eq (l : List ℚ) : qsum l = l.sum := by
  induction l with
  | nil => rfl
  | cons x xs ih => rw [qsum, qadd_eq, ih, List.sum_cons]

theorem qsum_nonneg (l : List ℚ) (h : ∀ x ∈ l, 0 ≤ x) : 0 ≤ qsum l := by
  rw [qsum_eq]
  exact List.sum_nonneg h

/-- The trailing `n` elements of a list (all of it when it is shorter). -/
def lastN (n : Nat) (l : List ℚ) : List ℚ := l.drop (l.length - n)

/-- Arithmetic mean of a list of rationals (`0` on the empty list). -/
def listMean (l : List ℚ) : ℚ := qdivNat (qsum l) l.length

/-- Population variance of a list of rationals, as computed by np.std squared.
Modelled from the spec: the documentation computes np.std of each half of the
trailing window; the controller only ever compares standard deviations of
nonnegative quantities, so the model stores the variance and compares against
squared bounds, which is equivalent (see the theorem for claim C4). -/
def varianceOf (l : List ℚ) : ℚ :=
  let m := listMean l
  qdivNat (qsum (l.map (fun x => qmul (qsub x m) (qsub x m)))) l.length

theorem varianceOf_nonneg (l : List ℚ) : 0 ≤ varianceOf l := by
  rw [varianceOf, qdivNat_eq]
  apply div_nonneg
  · apply qsum_nonneg
    intro x hx
    rcases List.mem_map.mp hx with ⟨y, _, rfl⟩
    rw [qmul_eq]
    exact mul_self_nonneg _
  · exact_mod_cast Nat.zero_le _

/-- Moving average over the trailing `w` raw values.
Modelled from the spec: each metric keeps a moving-average buffer of the last
`window_size` raw values; the smoothed value of an epoch is the mean of that
buffer. -/
def movingAverage (w : Nat) (h : List ℚ) : ℚ := listMean (lastN w h)

/-- Reason reported with a STOP action. -/
inductive StopReason where
  | patienceExhausted
  | overfittingPartialPatience
  | prolongedPlateau
deriving DecidableEq, Repr

/-- Action returned by one evaluate call. -/
inductive Action where
  | CONTINUE
  | STOP (reason : StopReason)
deriving DecidableEq, Repr

/-- Usage errors that fail a single evaluate call.
Modelled from the spec: out-of-order epochs and missing metric values fail the
call for that epoch and are surfaced to the caller. -/
inductive EvalError where
  | epochNotIncreasing
  | missingMetricValue
deriving DecidableEq, Repr

/-- One monitored metric: name and optimization direction.
Modelled from the spec: a MetricSpec is a (name, direction) pair fixed at
construction; `minimize = true` means smaller values are better. -/
structure MetricSpec where
  name : String
  minimize : Bool
deriving DecidableEq, Repr

/-- Construction parameters of the controller.
Modelled from the spec: configuration record with patience, min_delta,
window_size, the ordered monitored-metric list and the two behaviour flags. -/
structure Config where
  patience : Nat
  minDelta : ℚ
  windowSize : Nat
  monitorMetrics : List MetricSpec
  restoreBestWeights : Bool
  adaptivePatience : Bool
deriving DecidableEq, Repr

/-- Per-metric mutable state: raw value series, best smoothed value so far and
the epoch at which that best occurred.
Modelled from the spec: ControllerState holds, per metric, the current best
value and the epoch where it occurred, plus the raw series. -/
structure MetricState where
  history : List ℚ
  best : Option ℚ
  bestEpoch : Option Nat
deriving DecidableEq, Repr

/-- Immutable per-epoch entry of the decision log.
Modelled from the spec: DecisionRecord stores the epoch, which metrics
improved, the detector flags, the wait and patience values and the action. -/
structure DecisionRecord where
  epoch : Nat
  improved : List Bool
  plateau : Bool
  overfitting : Bool
  wait : Nat
  patience : Nat
  action : Action
deriving DecidableEq, Repr

/-- Global mutable state of the controller.  The best-model snapshot is an
opaque copy of the model parameters; it is modelled as a `Nat` token supplied
by the snapshot provider at each call.
Modelled from the spec: ControllerState with wait counter, current and
original patience, plateau streak counter, decision log, best snapshot
reference and best epoch for reporting. -/
structure ControllerState where
  metricStates : List MetricState
  wait : Nat
  patience : Nat
  originalPatience : Nat
  plateauCount : Nat
  lastEpoch : Option Nat
  epochCount : Nat
  bestSnapshot : Option Nat
  bestEpoch : Option Nat
  log : List DecisionRecord
deriving DecidableEq, Repr

/-- Reserved metric name for the raw training loss used by overfitting
detection. -/
def trainLossName : String := "train_loss"

/-- Reserved metric name for the raw validation loss used by overfitting
detection. -/
def valLossName : String := "val_loss"

/-- Configuration validation.
Modelled from the spec: construction fails on non-positive patience,
min_delta or window, an empty metric list, or duplicate metric names. -/
def validConfig (cfg : Config) : Bool :=
  decide (0 < cfg.patience) && qlt 0 cfg.minDelta && decide (0 < cfg.windowSize) &&
  decide (cfg.monitorMetrics ≠ []) && decide ((cfg.monitorMetrics.map MetricSpec.name).Nodup)

/-- Fresh controller state.
Modelled from the spec: ControllerState is created when training begins, with
empty histories, zero counters and patience equal to the configured value. -/
def initialState (cfg : Config) : ControllerState :=
  { metricStates := cfg.monitorMetrics.map (fun _ => ⟨[], none, none⟩)
    wait := 0
    patience := cfg.patience
    originalPatience := cfg.patience
    plateauCount := 0
    lastEpoch := none
    epochCount := 0
    bestSnapshot := none
    bestEpoch := none
    log := [] }

/-- Configuration error raised at construction time. -/
inductive ConfigError where
  | invalidConfiguration
deriving DecidableEq, Repr

/-- Controller construction; fails fast on malformed configuration.
Modelled from the spec: malformed configuration fails at construction, not at
the first evaluate call. -/
def mkController (cfg : Config) : Except ConfigError ControllerState :=
  if validConfig cfg then .ok (initialState cfg) else .error .invalidConfiguration

/-- Improvement test, from the code fragment in the documentation:
for minimize mode, improvement means `current < best - min_delta`; otherwise
`current > best + min_delta`.  The first observation is always an improvement
because no best exists yet. -/
def isImprovement (minimize : Bool) (delta current : ℚ) (best : Option ℚ) : Bool :=
  match best with
  | none => true
  | some b => if minimize then qlt current (qsub b delta) else qlt (qadd b delta) current

/-- Plateau detector, from the code fragment in the documentation:
split the trailing `2 * w` raw values of the series into the `w` most recent
and the `w` before them, and flag a plateau when the standard deviation of
the recent half is below `min_delta` and below half the standard deviation of
the older half.  With fewer than `2 * w` observations the plateau is false.
The test is stated on variances against squared bounds, which is equivalent
to the standard-deviation form (proved in the theorem for claim C4). -/
def detectPlateau (delta : ℚ) (w : Nat) (h : List ℚ) : Bool :=
  if h.length < 2 * w then false
  else
    let recent := lastN w h
    let older := lastN w (h.take (h.length - w))
    qlt (varianceOf recent) (qmul delta delta) &&
      qlt (qmul (mkRat 4 1) (varianceOf recent)) (varianceOf older)

/-- Overfitting detector, from the code fragment in the documentation:
`gap = val_loss - train_loss`, flagged when `gap > 0.1` and
`len(history) > 10`, computed on raw (unsmoothed) losses. -/
def detectOverfitting (gap : ℚ) (historyLen : Nat) : Bool :=
  qlt (mkRat 1 10) gap && decide (10 < historyLen)

/-- Stop-decision cascade, from the code fragment in the documentation
(first match wins, with Nat division for the partial-patience thresholds):
patience exhausted, then overfitting with half the patience consumed, then a
prolonged plateau, otherwise continue. -/
def stopDecision (wait patience : Nat) (overfit plateauDet : Bool)
    (plateauCount : Nat) : Action :=
  if patience ≤ wait then .STOP .patienceExhausted
  else if overfit = true ∧ patience / 2 ≤ wait then .STOP .overfittingPartialPatience
  else if plateauDet = true ∧ patience / 3 ≤ plateauCount then .STOP .prolongedPlateau
  else .CONTINUE

/-- How many monitored metrics improved within the most recent `w` recorded
epochs, read from the decision log.
Modelled from the spec: adaptive patience counts improving metrics over the
last `window_size` DecisionRecords. -/
def countRecentImprovements (w numMetrics : Nat) (log : List DecisionRecord) : Nat :=
  (List.range numMetrics).countP
    (fun i => (log.drop (log.length - w)).any (fun r => r.improved.getD i false))

/-- Adaptive patience adjustment, from the code fragment in the documentation:
when enabled and `wait > 0.7 * patience` (stated exactly as `10 * wait >
7 * patience`) and some monitored metric improved within the last
`window_size` recorded epochs, patience grows by 5 capped at twice the
original patience; otherwise it is unchanged. -/
def adaptedPatience (cfg : Config) (orig patience wait : Nat)
    (log : List DecisionRecord) : Nat :=
  if cfg.adaptivePatience = true ∧ 7 * patience < 10 * wait ∧
      0 < countRecentImprovements cfg.windowSize cfg.monitorMetrics.length log
  then min (patience + 5) (2 * orig)
  else patience

/-- Look up the raw value supplied for a metric name in this epoch. -/
def lookupVal (vals : List (String × ℚ)) (n : String) : Option ℚ :=
  match vals.find? (fun p => p.1 == n) with
  | some p => some p.2
  | none => none

/-- Collect the raw values of every configured monitored metric, in
configuration order; `none` when any monitored metric is missing.
Modelled from the spec: a missing metric value is an error, not silently
skipped. -/
def collectValues : List MetricSpec → List (String × ℚ) → Option (List ℚ)
  | [], _ => some []
  | sp :: sps, vals =>
    match lookupVal vals sp.name, collectValues sps vals with
    | some v, some vs => some (v :: vs)
    | _, _ => none

/-- Epoch ordering guard: the supplied epoch must exceed every epoch already
evaluated.
Modelled from the spec: out-of-order or repeated epochs are a usage error. -/
def epochFresh (lastEpoch : Option Nat) (epoch : Nat) : Bool :=
  match lastEpoch with
  | none => true
  | some e0 => decide (e0 < epoch)

/-- Per-metric update for one epoch: append the raw value, smooth over the
trailing window, test improvement against the stored best smoothed value and
run the plateau detector on the updated raw series.  Returns the new metric
state, the improvement flag and the plateau flag.
Modelled from the spec: the smoothed value is compared against the best using
the optimization direction and min_delta; improvement updates best and
best-epoch. -/
def updateMetric (cfg : Config) (spec : MetricSpec) (ms : MetricState)
    (epoch : Nat) (raw : ℚ) : MetricState × Bool × Bool :=
  let h1 := ms.history ++ [raw]
  let smoothed := movingAverage cfg.windowSize h1
  let imp := isImprovement spec.minimize cfg.minDelta smoothed ms.best
  let ms1 : MetricState :=
    if imp then ⟨h1, some smoothed, some epoch⟩ else ⟨h1, ms.best, ms.bestEpoch⟩
  (ms1, imp, detectPlateau cfg.minDelta cfg.windowSize h1)

/-- Pointwise update of all monitored metrics (lists aligned by position). -/
def updateMetrics (cfg : Config) (epoch : Nat) :
    List MetricSpec → List MetricState → List ℚ → List (MetricState × Bool × Bool)
  | sp :: sps, ms :: mss, r :: rs =>
    updateMetric cfg sp ms epoch r :: updateMetrics cfg epoch sps mss rs
  | _, _, _ => []

/-- State update and decision of one successful evaluate call (validation
already passed, `raws` are the monitored raw values in configuration order).
Modelled from the spec pipeline: append and smooth, detect improvement and
reset or grow the wait counter, capture a snapshot on a new best, run the
plateau and overfitting detectors, adapt patience, decide, then append the
DecisionRecord. -/
def evaluateCore (cfg : Config) (s : ControllerState) (epoch : Nat)
    (raws : List ℚ) (vals : List (String × ℚ)) (snap : Nat) :
    ControllerState × Action :=
  let updates := updateMetrics cfg epoch cfg.monitorMetrics s.metricStates raws
  let improvedFlags := updates.map (fun u => u.2.1)
  let anyImp := improvedFlags.any (fun b => b)
  let plateauDet := (updates.map (fun u => u.2.2)).any (fun b => b)
  let wait1 := if anyImp then 0 else s.wait + 1
  let plateauCount1 := if plateauDet then s.plateauCount + 1 else 0
  let epochCount1 := s.epochCount + 1
  let overfit :=
    match lookupVal vals trainLossName, lookupVal vals valLossName with
    | some t, some v => detectOverfitting (qsub v t) epochCount1
    | _, _ => false
  let patience1 := adaptedPatience cfg s.originalPatience s.patience wait1 s.log
  let act := stopDecision wait1 patience1 overfit plateauDet plateauCount1
  let recd : DecisionRecord :=
    { epoch := epoch, improved := improvedFlags, plateau := plateauDet,
      overfitting := overfit, wait := wait1, patience := patience1, action := act }
  ({ metricStates := updates.map (fun u => u.1)
     wait := wait1
     patience := patience1
     originalPatience := s.originalPatience
     plateauCount := plateauCount1
     lastEpoch := some epoch
     epochCount := epochCount1
     bestSnapshot := if anyImp then some snap else s.bestSnapshot
     bestEpoch := if anyImp then some epoch else s.bestEpoch
     log := s.log ++ [recd] }, act)

/-- One evaluate call: validate the epoch order and the presence of every
monitored metric value, then run the update-and-decide pipeline.  The `snap`
argument stands for the opaque parameter copy the snapshot provider would
return if invoked this epoch. -/
def evaluate (cfg : Config) (s : ControllerState) (epoch : Nat)
    (vals : List (String × ℚ)) (snap : Nat) :
    Except EvalError (ControllerState × Action) :=
  if epochFresh s.lastEpoch epoch then
    match collectValues cfg.monitorMetrics vals with
    | some raws => .ok (evaluateCore cfg s epoch raws vals snap)
    | none => .error .missingMetricValue
  else .error .epochNotIncreasing

/-- The controller state the caller holds after a call: the updated state on
success, the unchanged state on a failed call. -/
def stateAfter (cfg : Config) (s : ControllerState) (epoch : Nat)
    (vals : List (String × ℚ)) (snap : Nat) : ControllerState :=
  match evaluate cfg s epoch vals snap with
  | .ok (s1, _) => s1
  | .error _ => s

/-- The action of a call, when it succeeded. -/
def actionAfter (cfg : Config) (s : ControllerState) (epoch : Nat)
    (vals : List (String × ℚ)) (snap : Nat) : Option Action :=
  match evaluate cfg s epoch vals snap with
  | .ok (_, a) => some a
  | .error _ => none

/-- Accessor returning the stored best snapshot.
Modelled from the spec: the testable-properties section requires restore to
be a non-consuming read, returning the same snapshot on repeated calls; it
returns the snapshot reference (or none) and leaves the state unchanged. -/
def restore (s : ControllerState) : Option Nat × ControllerState :=
  (s.bestSnapshot, s)

/-- Drive the controller over a list of (epoch, metric values) inputs,
stopping at the first STOP.  The snapshot token supplied at each epoch is the
epoch number itself.  Returns the final state and, when the controller
stopped, the stopping epoch and reason. -/
def runController (cfg : Config) :
    ControllerState → List (Nat × List (String × ℚ)) →
    ControllerState × Option (Nat × StopReason)
  | s, [] => (s, none)
  | s, (e, vals) :: rest =>
    match evaluate cfg s e vals e with
    | .error _ => runController cfg s rest
    | .ok (s1, .CONTINUE) => runController cfg s1 rest
    | .ok (s1, .STOP r) => (s1, some (e, r))

theorem mkRat_eq_div (n : Int) (d : Nat) : mkRat n d = (n : ℚ) / (d : ℚ) := by
  rw [Rat.mkRat_eq_divInt, Rat.divInt_eq_div]
  push_cast
  ring_nf

theorem collectValues_length :
    ∀ (sps : List MetricSpec) (vals : List (String × ℚ)) (raws : List ℚ),
      collectValues sps vals = some raws → raws.length = sps.length := by
  intro sps
  induction sps with
  | nil =>
    intro vals raws h
    rw [collectValues] at h
    cases h
    rfl
  | cons sp sps ih =>
    intro vals raws h
    rw [collectValues] at h
    cases hv : lookupVal vals sp.name with
    | none => rw [hv] at h; cases h
    | some v =>
      rw [hv] at h
      cases hc : collectValues sps vals with
      | none => rw [hc] at h; cases h
      | some vs =>
        rw [hc] at h
        cases h
        simp [ih vals vs hc]

theorem evaluate_ok_inv {cfg : Config} {s : ControllerState} {epoch : Nat}
    {vals : List (String × ℚ)} {snap : Nat} {s1 : ControllerState} {a : Action}
    (h : evaluate cfg s epoch vals snap = .ok (s1, a)) :
    ∃ raws, collectValues cfg.monitorMetrics vals = some raws ∧
      epochFresh s.lastEpoch epoch = true ∧
      s1 = (evaluateCore cfg s epoch raws vals snap).1 ∧
      a = (evaluateCore cfg s epoch raws vals snap).2 := by
  rw [evaluate] at h
  split at h
  case isTrue hfresh =>
    cases hc : collectValues cfg.monitorMetrics vals with
    | none => rw [hc] at h; cases h
    | some raws =>
      rw [hc] at h
      injection h with h1
      exact ⟨raws, hc ▸ rfl, hfresh, (congrArg Prod.fst h1).symm, (congrArg Prod.snd h1).symm⟩
  case isFalse => cases h

/-- C4: for every metric series and window, the plateau flag is set if and
only if at least `2 * window_size` observations exist and, splitting the
trailing `2 * window_size` raw values into an older half and a recent half,
the standard deviation of the recent half is below `min_delta` and below half
the standard deviation of the older half; with fewer observations the flag is
false. -/
theorem c4_plateau_characterization (delta : ℚ) (hpos : 0 < delta) (w : Nat)
    (h : List ℚ) :
    detectPlateau delta w h = true ↔
      (2 * w ≤ h.length ∧
        Real.sqrt ((varianceOf (lastN w h) : ℚ) : ℝ) < ((delta : ℚ) : ℝ) ∧
        Real.sqrt ((varianceOf (lastN w h) : ℚ) : ℝ) <
          (1 / 2) *
            Real.sqrt ((varianceOf (lastN w (h.take (h.length - w))) : ℚ) : ℝ)) := by
  rw [detectPlateau]
  split_ifs with hlen
  · constructor
    · intro hfalse
      cases hfalse
    · intro hconj
      omega
  · have hge : 2 * w ≤ h.length := by omega
    have hvr : (0 : ℝ) ≤ ((varianceOf (lastN w h) : ℚ) : ℝ) := by
      exact_mod_cast varianceOf_nonneg _
    have hvo : (0 : ℝ) ≤
        ((varianceOf (lastN w (h.take (h.length - w))) : ℚ) : ℝ) := by
      exact_mod_cast varianceOf_nonneg _
    have hd : (0 : ℝ) < ((delta : ℚ) : ℝ) := by exact_mod_cast hpos
    rw [Bool.and_eq_true, qlt_iff, qlt_iff, qmul_eq, qmul_eq, mkRat_eq_div]
    constructor
    · rintro ⟨h1, h2⟩
      refine ⟨hge, ?_, ?_⟩
      · rw [Real.sqrt_lt' hd]
        have : ((varianceOf (lastN w h) : ℚ) : ℝ) < ((delta * delta : ℚ) : ℝ) := by
          exact_mod_cast h1
        calc ((varianceOf (lastN w h) : ℚ) : ℝ)
            < ((delta * delta : ℚ) : ℝ) := this
          _ = ((delta : ℚ) : ℝ) ^ 2 := by push_cast; ring
      · have h4 : ((varianceOf (lastN w h) : ℚ) : ℝ) <
            ((varianceOf (lastN w (h.take (h.length - w))) : ℚ) : ℝ) / 4 := by
          have : ((((4 : ℤ) : ℚ) / ((1 : ℕ) : ℚ) * varianceOf (lastN w h) : ℚ) : ℝ) <
              ((varianceOf (lastN w (h.take (h.length - w))) : ℚ) : ℝ) := by
            exact_mod_cast h2
          push_cast at this
          linarith
        calc Real.sqrt ((varianceOf (lastN w h) : ℚ) : ℝ)
            < Real.sqrt (((varianceOf (lastN w (h.take (h.length - w))) : ℚ) : ℝ) / 4) :=
              Real.sqrt_lt_sqrt hvr h4
          _ = (1 / 2) *
              Real.sqrt ((varianceOf (lastN w (h.take (h.length - w))) : ℚ) : ℝ) := by
              rw [Real.sqrt_div' _ (by norm_num : (0:ℝ) ≤ 4)]
              rw [show Real.sqrt 4 = 2 by
                rw [show (4 : ℝ) = 2 ^ 2 by norm_num, Real.sqrt_sq (by norm_num)]]
              ring
    · rintro ⟨_, h2, h3⟩
      constructor
      · rw [Real.sqrt_lt' hd] at h2
        have : ((varianceOf (lastN w h) : ℚ) : ℝ) < ((delta * delta : ℚ) : ℝ) := by
          calc ((varianceOf (lastN w h) : ℚ) : ℝ)
              < ((delta : ℚ) : ℝ) ^ 2 := h2
            _ = ((delta * delta : ℚ) : ℝ) := by push_cast; ring
        exact_mod_cast this
      · have heq : (1 / 2 : ℝ) *
            Real.sqrt ((varianceOf (lastN w (h.take (h.length - w))) : ℚ) : ℝ) =
            Real.sqrt (((varianceOf (lastN w (h.take (h.length - w))) : ℚ) : ℝ) / 4) := by
          rw [Real.sqrt_div' _ (by norm_num : (0:ℝ) ≤ 4)]
          rw [show Real.sqrt 4 = 2 by
            rw [show (4 : ℝ) = 2 ^ 2 by norm_num, Real.sqrt_sq (by norm_num)]]
          ring
        rw [heq, Real.sqrt_lt_sqrt_iff hvr] at h3
        have : ((((4 : ℤ) : ℚ) / ((1 : ℕ) : ℚ)) * varianceOf (lastN w h) : ℚ) <
            varianceOf (lastN w (h.take (h.length - w))) := by
          have h4 : (4 : ℝ) * ((varianceOf (lastN w h) : ℚ) : ℝ) <
              ((varianceOf (lastN w (h.take (h.length - w))) : ℚ) : ℝ) := by
            linarith
          push_cast
          rw [div_one]
          exact_mod_cast h4
        exact this

/-- Witness for C4: the theorem applied at min_delta 1, window 1 and the
two-element flat series, where the variance comparison against half the older
deviation fails, so no plateau is flagged. -/
theorem c4_witness :
    (0 : ℚ) < 1 ∧
      (detectPlateau 1 1 [0, 0] = true ↔
        (2 * 1 ≤ ([0, 0] : List ℚ).length ∧
          Real.sqrt ((varianceOf (lastN 1 [0, 0]) : ℚ) : ℝ) < ((1 : ℚ) : ℝ) ∧
          Real.sqrt ((varianceOf (lastN 1 [0, 0]) : ℚ) : ℝ) <
            (1 / 2) *
              Real.sqrt
                ((varianceOf (lastN 1 (([0, 0] : List ℚ).take
                  (([0, 0] : List ℚ).length - 1))) : ℚ) : ℝ))) :=
  ⟨by norm_num, c4_plateau_characterization 1 (by norm_num) 1 [0, 0]⟩

/-- Valid single-metric configuration with patience 1, used to exercise the
stop-decision cascade at the boundary patience / 3 = 0. -/
def c1Cfg : Config :=
  { patience := 1, minDelta := mkRat 1 100000, windowSize := 1,
    monitorMetrics := [⟨"val_loss", true⟩],
    restoreBestWeights := true, adaptivePatience := true }

/-- The stop-decision cascade exactly as the claim words it: step 3 tests only
the plateau streak counter against `patience / 3`, without requiring the
plateau flag of the current epoch.  Stated for comparison with
`stopDecision`, which follows the documented code. -/
def claimedStopDecision (wait patience : Nat) (overfit : Bool)
    (plateauCount : Nat) : Action :=
  if patience ≤ wait then .STOP .patienceExhausted
  else if overfit = true ∧ patience / 2 ≤ wait then .STOP .overfittingPartialPatience
  else if patience / 3 ≤ plateauCount then .STOP .prolongedPlateau
  else .CONTINUE

/-- Counterexample for C1: a valid controller with patience 1 evaluates its
first epoch.  At decision time wait is 0, no overfitting is flagged, the
plateau streak is 0 and no plateau is detected.  The call returns CONTINUE,
but the cascade exactly as the claim words it returns STOP with reason
prolonged plateau, because the streak 0 already reaches patience / 3 = 0. -/
theorem c1_counterexample :
    validConfig c1Cfg = true ∧
    actionAfter c1Cfg (initialState c1Cfg) 1 [("val_loss", 1)] 0 =
      some Action.CONTINUE ∧
    (stateAfter c1Cfg (initialState c1Cfg) 1 [("val_loss", 1)] 0).wait = 0 ∧
    (stateAfter c1Cfg (initialState c1Cfg) 1 [("val_loss", 1)] 0).patience = 1 ∧
    (stateAfter c1Cfg (initialState c1Cfg) 1 [("val_loss", 1)] 0).plateauCount = 0 ∧
    ((stateAfter c1Cfg (initialState c1Cfg) 1 [("val_loss", 1)] 0).log.map
      (fun r => r.overfitting)) = [false] ∧
    ((stateAfter c1Cfg (initialState c1Cfg) 1 [("val_loss", 1)] 0).log.map
      (fun r => r.plateau)) = [false] ∧
    claimedStopDecision 0 1 false 0 = Action.STOP StopReason.prolongedPlateau := by
  decide

/-- C1 (amended): every successful evaluate call appends one decision record
and returns exactly the action of the documented cascade evaluated on the
values of that record, where the cascade checks, first match winning:
(1) wait at least patience, STOP patience exhausted; (2) overfitting flagged
and wait at least patience / 2, STOP overfitting with partial patience;
(3) a plateau detected this epoch and the plateau streak at least
patience / 3, STOP prolonged plateau; (4) otherwise CONTINUE.  The amendment
adds the condition, present in the code, that step 3 also requires the
plateau flag of the current epoch, which matters only when patience / 3 = 0. -/
theorem c1_stop_decision_cascade :
    (∀ (cfg : Config) (s : ControllerState) (epoch : Nat)
        (vals : List (String × ℚ)) (snap : Nat) (s1 : ControllerState) (a : Action),
      evaluate cfg s epoch vals snap = .ok (s1, a) →
      ∃ r, s1.log = s.log ++ [r] ∧ a = r.action ∧
        r.action = stopDecision r.wait r.patience r.overfitting r.plateau
          s1.plateauCount) ∧
    (∀ (w p : Nat) (ov pd : Bool) (pc : Nat),
      (stopDecision w p ov pd pc = .STOP .patienceExhausted ↔ p ≤ w) ∧
      (stopDecision w p ov pd pc = .STOP .overfittingPartialPatience ↔
        w < p ∧ ov = true ∧ p / 2 ≤ w) ∧
      (stopDecision w p ov pd pc = .STOP .prolongedPlateau ↔
        w < p ∧ ¬(ov = true ∧ p / 2 ≤ w) ∧ (pd = true ∧ p / 3 ≤ pc)) ∧
      (stopDecision w p ov pd pc = .CONTINUE ↔
        w < p ∧ ¬(ov = true ∧ p / 2 ≤ w) ∧ ¬(pd = true ∧ p / 3 ≤ pc))) := by
  constructor
  · intro cfg s epoch vals snap s1 a h
    obtain ⟨raws, _, _, hs, ha⟩ := evaluate_ok_inv h
    subst hs
    subst ha
    exact ⟨_, rfl, rfl, rfl⟩
  · intro w p ov pd pc
    refine ⟨?_, ?_, ?_, ?_⟩ <;>
      (rw [stopDecision]; split_ifs with h1 h2 h3 <;> simp_all)

/-- Witness for the C1 theorem at its concrete input: the single evaluate
call of the counterexample configuration. -/
theorem c1_witness :
    ∃ r, (stateAfter c1Cfg (initialState c1Cfg) 1 [("val_loss", 1)] 0).log =
        (initialState c1Cfg).log ++ [r] ∧ Action.CONTINUE = r.action ∧
        r.action = stopDecision r.wait r.patience r.overfitting r.plateau
          (stateAfter c1Cfg (initialState c1Cfg) 1 [("val_loss", 1)] 0).plateauCount :=
  c1_stop_decision_cascade.1 c1Cfg (initialState c1Cfg) 1 [("val_loss", 1)] 0
    (stateAfter c1Cfg (initialState c1Cfg) 1 [("val_loss", 1)] 0) Action.CONTINUE
    (by rfl)

/-- Configuration of the synthetic single-metric run of claim C3:
"validation-loss" minimized, patience 20, window 10, default min_delta. -/
def c3Cfg : Config :=
  { patience := 20, minDelta := mkRat 1 100000, windowSize := 10,
    monitorMetrics := [⟨"validation-loss", true⟩],
    restoreBestWeights := true, adaptivePatience := true }

/-- The synthetic series of claim C3: strictly decreasing by 0.1 per epoch
for epochs 1..30 (from 3.9 down to 1.0), then exactly flat at 1.0 (within the
permitted one-in-ten-million ripple) for epochs 31..55. -/
def c3Value (e : Nat) : ℚ := if e ≤ 30 then mkRat (40 - (e : Int)) 10 else 1

/-- The 55 evaluate inputs of the C3 run, epochs 1..55 in order. -/
def c3Inputs : List (Nat × List (String × ℚ)) :=
  (List.range 55).map (fun k => (k + 1, [("validation-loss", c3Value (k + 1))]))

/-- Counterexample for C3: the series is strictly decreasing for 30 epochs
and flat afterwards, the controller does stop at epoch 44, at or before
epoch 50, but the reported best epoch is 39, not 30: the comparison runs on
the 10-epoch moving average, which keeps improving for window_size - 1
epochs after the raw series flattens. -/
theorem c3_counterexample :
    validConfig c3Cfg = true ∧
    ((List.range 29).all (fun k => qlt (c3Value (k + 2)) (c3Value (k + 1))) = true) ∧
    ((List.range 25).all (fun k => c3Value (31 + k) == 1) = true) ∧
    (runController c3Cfg (initialState c3Cfg) c3Inputs).2 =
      some (44, StopReason.prolongedPlateau) ∧
    (runController c3Cfg (initialState c3Cfg) c3Inputs).1.bestEpoch ≠ some 30 := by
  decide

/-- C3 (amended): on the synthetic series of the claim the controller stops
at epoch 44, at or before epoch 50 as claimed, with reason prolonged
plateau, but the reported best epoch is 39, the epoch at which the 10-epoch
moving average stops improving, rather than 30, the last strictly-decreasing
raw epoch. -/
theorem c3_stop_and_best_epoch :
    (runController c3Cfg (initialState c3Cfg) c3Inputs).2 =
      some (44, StopReason.prolongedPlateau) ∧
    44 ≤ 50 ∧
    (runController c3Cfg (initialState c3Cfg) c3Inputs).1.bestEpoch = some 39 := by
  decide

theorem updateMetrics_map_fst_getD (cfg : Config) (epoch : Nat) :
    ∀ (sps : List MetricSpec) (mss : List MetricState) (rs : List ℚ) (i : Nat),
      i < sps.length → i < mss.length → i < rs.length →
      ((updateMetrics cfg epoch sps mss rs).map (fun u => u.1)).getD i ⟨[], none, none⟩ =
        (updateMetric cfg (sps.getD i ⟨"", true⟩) (mss.getD i ⟨[], none, none⟩) epoch
          (rs.getD i 0)).1 := by
  intro sps
  induction sps with
  | nil =>
    intro mss rs i h1 h2 h3
    exact absurd h1 (Nat.not_lt_zero i)
  | cons sp sps ih =>
    intro mss rs i h1 h2 h3
    cases mss with
    | nil => exact absurd h2 (Nat.not_lt_zero i)
    | cons ms mss =>
      cases rs with
      | nil => exact absurd h3 (Nat.not_lt_zero i)
      | cons r rs =>
        cases i with
        | zero => rfl
        | succ i =>
          simp only [updateMetrics, List.map_cons, List.getD_cons_succ]
          exact ih mss rs i (by simpa using h1) (by simpa using h2) (by simpa using h3)

theorem updateMetrics_any_improved (cfg : Config) (epoch : Nat) :
    ∀ (sps : List MetricSpec) (mss : List MetricState) (rs : List ℚ) (i : Nat),
      i < sps.length → i < mss.length → i < rs.length →
      (updateMetric cfg (sps.getD i ⟨"", true⟩) (mss.getD i ⟨[], none, none⟩) epoch
        (rs.getD i 0)).2.1 = true →
      ((updateMetrics cfg epoch sps mss rs).map (fun u => u.2.1)).any
        (fun b => b) = true := by
  intro sps
  induction sps with
  | nil =>
    intro mss rs i h1 h2 h3 himp
    exact absurd h1 (Nat.not_lt_zero i)
  | cons sp sps ih =>
    intro mss rs i h1 h2 h3 himp
    cases mss with
    | nil => exact absurd h2 (Nat.not_lt_zero i)
    | cons ms mss =>
      cases rs with
      | nil => exact absurd h3 (Nat.not_lt_zero i)
      | cons r rs =>
        cases i with
        | zero =>
          simp only [List.getD_cons_zero] at himp
          simp [updateMetrics, List.any_cons, himp]
        | succ i =>
          simp only [List.getD_cons_succ] at himp
          have := ih mss rs i (by simpa using h1) (by simpa using h2)
            (by simpa using h3) himp
          simp [updateMetrics, List.any_cons, this]

/-- Single-metric configuration with window 1 used by the C2 analysis: the
smoothed value then equals the raw value, making the series explicit. -/
def c2Cfg : Config :=
  { patience := 20, minDelta := mkRat 1 100000, windowSize := 1,
    monitorMetrics := [⟨"val_loss", true⟩],
    restoreBestWeights := true, adaptivePatience := true }

/-- Three epochs of the C2 run: values 1, 1/2, 4/5 for the minimized metric. -/
def c2Inputs : List (Nat × List (String × ℚ)) :=
  [(1, [("val_loss", 1)]), (2, [("val_loss", mkRat 1 2)]),
   (3, [("val_loss", mkRat 4 5)])]

/-- Counterexample for C2: take e1 = 1 and e2 = 3.  The best value as of
epoch 1 is 1, and the smoothed value at epoch 3 is 4/5, which improves on 1
by more than min_delta.  Yet after epoch 3 the recorded best value is 1/2
(set at epoch 2), the best epoch is 2, and wait is 1, not 0: the claim only
holds against the best value immediately before e2, not against the best as
of an arbitrary earlier epoch e1. -/
theorem c2_counterexample :
    validConfig c2Cfg = true ∧
    ((runController c2Cfg (initialState c2Cfg) (c2Inputs.take 1)).1.metricStates.getD 0
      ⟨[], none, none⟩).best = some 1 ∧
    movingAverage c2Cfg.windowSize [1, mkRat 1 2, mkRat 4 5] = mkRat 4 5 ∧
    isImprovement true c2Cfg.minDelta (mkRat 4 5) (some 1) = true ∧
    ((runController c2Cfg (initialState c2Cfg) c2Inputs).1.metricStates.getD 0
      ⟨[], none, none⟩).best = some (mkRat 1 2) ∧
    ((runController c2Cfg (initialState c2Cfg) c2Inputs).1.metricStates.getD 0
      ⟨[], none, none⟩).bestEpoch = some 2 ∧
    (runController c2Cfg (initialState c2Cfg) c2Inputs).1.wait = 1 := by
  decide

/-- C2 (amended): at every successful evaluate call, if a monitored metric
improves on its best value as recorded immediately before the call (that is,
with e1 = e2 - 1: the smoothed value beats the current best by more than
min_delta in the metric direction), then after the call that metric records
the new smoothed value as best, the best epoch is the current epoch, and the
global wait counter is 0. -/
theorem c2_improvement_resets (cfg : Config) (s : ControllerState) (epoch : Nat)
    (vals : List (String × ℚ)) (snap : Nat) (s1 : ControllerState) (a : Action)
    (raws : List ℚ) (i : Nat)
    (hok : evaluate cfg s epoch vals snap = .ok (s1, a))
    (hcol : collectValues cfg.monitorMetrics vals = some raws)
    (hlen : s.metricStates.length = cfg.monitorMetrics.length)
    (hi : i < cfg.monitorMetrics.length)
    (himp : isImprovement (cfg.monitorMetrics.getD i ⟨"", true⟩).minimize cfg.minDelta
      (movingAverage cfg.windowSize
        ((s.metricStates.getD i ⟨[], none, none⟩).history ++ [raws.getD i 0]))
      (s.metricStates.getD i ⟨[], none, none⟩).best = true) :
    (s1.metricStates.getD i ⟨[], none, none⟩).best =
      some (movingAverage cfg.windowSize
        ((s.metricStates.getD i ⟨[], none, none⟩).history ++ [raws.getD i 0])) ∧
    (s1.metricStates.getD i ⟨[], none, none⟩).bestEpoch = some epoch ∧
    s1.wait = 0 := by
  obtain ⟨raws2, hcol2, hfresh, hs, ha⟩ := evaluate_ok_inv hok
  rw [hcol] at hcol2
  injection hcol2 with hr
  subst hr
  subst hs
  have hlenr : raws.length = cfg.monitorMetrics.length :=
    collectValues_length _ _ _ hcol
  have hupd := updateMetrics_map_fst_getD cfg epoch cfg.monitorMetrics
    s.metricStates raws i hi (by omega) (by omega)
  have himp2 : (updateMetric cfg (cfg.monitorMetrics.getD i ⟨"", true⟩)
      (s.metricStates.getD i ⟨[], none, none⟩) epoch (raws.getD i 0)).2.1 = true := by
    simpa [updateMetric] using himp
  have hany := updateMetrics_any_improved cfg epoch cfg.monitorMetrics
    s.metricStates raws i hi (by omega) (by omega) himp2
  refine ⟨?_, ?_, ?_⟩
  · show (((updateMetrics cfg epoch cfg.monitorMetrics s.metricStates raws).map
      (fun u : MetricState × Bool × Bool => u.1)).getD i
        (⟨[], none, none⟩ : MetricState)).best = _
    rw [hupd]
    simp only [updateMetric]
    rw [himp]
    simp
  · show (((updateMetrics cfg epoch cfg.monitorMetrics s.metricStates raws).map
      (fun u : MetricState × Bool × Bool => u.1)).getD i
        (⟨[], none, none⟩ : MetricState)).bestEpoch = _
    rw [hupd]
    simp only [updateMetric]
    rw [himp]
    simp
  · show (if ((updateMetrics cfg epoch cfg.monitorMetrics s.metricStates raws).map
      (fun u : MetricState × Bool × Bool => u.2.1)).any (fun b => b)
      then 0 else s.wait + 1) = 0
    rw [hany]
    rfl

/-- Witness for the C2 theorem: the first evaluate call of the C2
configuration, where the very first observation improves on the absent best
value and resets wait. -/
theorem c2_witness :
    ((stateAfter c2Cfg (initialState c2Cfg) 1 [("val_loss", 1)] 0).metricStates.getD 0
      ⟨[], none, none⟩).best =
      some (movingAverage c2Cfg.windowSize
        (((initialState c2Cfg).metricStates.getD 0 ⟨[], none, none⟩).history ++
          [([(1 : ℚ)].getD 0 0)])) ∧
    ((stateAfter c2Cfg (initialState c2Cfg) 1 [("val_loss", 1)] 0).metricStates.getD 0
      ⟨[], none, none⟩).bestEpoch = some 1 ∧
    (stateAfter c2Cfg (initialState c2Cfg) 1 [("val_loss", 1)] 0).wait = 0 :=
  c2_improvement_resets c2Cfg (initialState c2Cfg) 1 [("val_loss", 1)] 0
    (stateAfter c2Cfg (initialState c2Cfg) 1 [("val_loss", 1)] 0) Action.CONTINUE
    [1] 0 (by rfl) (by rfl) (by rfl) (by decide) (by decide)

/-- Single-metric configuration used by the C5 run. -/
def c5Cfg : Config :=
  { patience := 20, minDelta := mkRat 1 100000, windowSize := 10,
    monitorMetrics := [⟨"val_loss", true⟩],
    restoreBestWeights := true, adaptivePatience := true }

/-- Ten epochs supplying both reserved losses, with a constant raw gap of
0.2 between validation and training loss and a strictly improving monitored
validation loss. -/
def c5Inputs : List (Nat × List (String × ℚ)) :=
  (List.range 10).map (fun k =>
    (k + 1, [("val_loss", mkRat (30 - (k : Int)) 10),
             ("train_loss", mkRat (28 - (k : Int)) 10)]))

/-- The overfitting test exactly as the claim words it: flagged when the raw
gap exceeds 0.1 and at least 10 epochs of history exist.  Stated for
comparison with `detectOverfitting`, which follows the documented code and
requires strictly more than 10 epochs. -/
def claimedOverfitting (gap : ℚ) (historyLen : Nat) : Bool :=
  qlt (mkRat 1 10) gap && decide (10 ≤ historyLen)

/-- Counterexample for C5: after the tenth evaluate call exactly 10 epochs of
history exist and the raw gap 0.2 exceeds 0.1, so the claim flags
overfitting, but every decision record of the run, the tenth included, has
the overfitting flag false, because the documented code requires strictly
more than 10 epochs of history. -/
theorem c5_counterexample :
    validConfig c5Cfg = true ∧
    (runController c5Cfg (initialState c5Cfg) c5Inputs).2 = none ∧
    (runController c5Cfg (initialState c5Cfg) c5Inputs).1.epochCount = 10 ∧
    ((runController c5Cfg (initialState c5Cfg) c5Inputs).1.log.map
      (fun r => r.overfitting)) =
      [false, false, false, false, false, false, false, false, false, false] ∧
    qsub (mkRat 21 10) (mkRat 19 10) = mkRat 1 5 ∧
    claimedOverfitting (mkRat 1 5) 10 = true ∧
    detectOverfitting (mkRat 1 5) 10 = false := by
  decide

/-- C5 (amended): at every successful evaluate call that supplies both the
reserved training-loss and validation-loss values, the overfitting flag of
the appended decision record is set if and only if the raw gap
validation - training exceeds 0.1 and strictly more than 10 epochs of
history exist after the call. -/
theorem c5_overfitting_flag (cfg : Config) (s : ControllerState) (epoch : Nat)
    (vals : List (String × ℚ)) (snap : Nat) (s1 : ControllerState) (a : Action)
    (t v : ℚ)
    (hok : evaluate cfg s epoch vals snap = .ok (s1, a))
    (ht : lookupVal vals trainLossName = some t)
    (hv : lookupVal vals valLossName = some v) :
    ∃ r, s1.log = s.log ++ [r] ∧
      (r.overfitting = true ↔ ((1 : ℚ) / 10 < v - t ∧ 10 < s1.epochCount)) := by
  obtain ⟨raws, hcol, hfresh, hs, ha⟩ := evaluate_ok_inv hok
  subst hs
  refine ⟨_, rfl, ?_⟩
  show (match lookupVal vals trainLossName, lookupVal vals valLossName with
    | some t2, some v2 => detectOverfitting (qsub v2 t2) (s.epochCount + 1)
    | _, _ => false) = true ↔ _
  rw [ht, hv]
  show detectOverfitting (qsub v t) (s.epochCount + 1) = true ↔
    ((1 : ℚ) / 10 < v - t ∧ 10 < s.epochCount + 1)
  rw [detectOverfitting, Bool.and_eq_true, qlt_iff, qsub_eq, decide_eq_true_iff,
    mkRat_eq_div]
  constructor
  · rintro ⟨h1, h2⟩
    refine ⟨?_, h2⟩
    push_cast at h1
    exact h1
  · rintro ⟨h1, h2⟩
    refine ⟨?_, h2⟩
    push_cast
    exact h1

/-- Witness for the C5 theorem: the first evaluate call of the C5
configuration with both reserved losses supplied. -/
theorem c5_witness :
    ∃ r, (stateAfter c5Cfg (initialState c5Cfg) 1
        [("val_loss", 3), ("train_loss", 1)] 0).log =
      (initialState c5Cfg).log ++ [r] ∧
      (r.overfitting = true ↔ ((1 : ℚ) / 10 < (3 : ℚ) - 1 ∧
        10 < (stateAfter c5Cfg (initialState c5Cfg) 1
          [("val_loss", 3), ("train_loss", 1)] 0).epochCount)) :=
  c5_overfitting_flag c5Cfg (initialState c5Cfg) 1
    [("val_loss", 3), ("train_loss", 1)] 0
    (stateAfter c5Cfg (initialState c5Cfg) 1 [("val_loss", 3), ("train_loss", 1)] 0)
    Action.CONTINUE 1 3 (by rfl) (by rfl) (by rfl)

/-- C6: at every successful evaluate call, the patience threshold grows by 5
capped at twice the original patience exactly when adaptive patience is
enabled, the updated wait counter exceeds 0.7 times the current patience
(stated exactly as 10 * wait > 7 * patience), and at least one monitored
metric improved within the most recent window_size recorded epochs; when
adaptive patience is disabled or either condition fails, patience is left
unchanged by the call. -/
theorem c6_adaptive_patience (cfg : Config) (s : ControllerState) (epoch : Nat)
    (vals : List (String × ℚ)) (snap : Nat) (s1 : ControllerState) (a : Action)
    (hok : evaluate cfg s epoch vals snap = .ok (s1, a)) :
    (cfg.adaptivePatience = false → s1.patience = s.patience) ∧
    ((cfg.adaptivePatience = true ∧ 7 * s.patience < 10 * s1.wait ∧
        0 < countRecentImprovements cfg.windowSize cfg.monitorMetrics.length s.log) →
      s1.patience = min (s.patience + 5) (2 * s.originalPatience)) ∧
    (¬(cfg.adaptivePatience = true ∧ 7 * s.patience < 10 * s1.wait ∧
        0 < countRecentImprovements cfg.windowSize cfg.monitorMetrics.length s.log) →
      s1.patience = s.patience) := by
  obtain ⟨raws, hcol, hfresh, hs, ha⟩ := evaluate_ok_inv hok
  subst hs
  refine ⟨?_, ?_, ?_⟩
  · intro hoff
    show adaptedPatience cfg s.originalPatience s.patience
      ((evaluateCore cfg s epoch raws vals snap).1.wait) s.log = s.patience
    rw [adaptedPatience]
    split_ifs with hc
    · rw [hoff] at hc
      exact absurd hc.1 (by simp)
    · rfl
  · intro hcond
    show adaptedPatience cfg s.originalPatience s.patience
      ((evaluateCore cfg s epoch raws vals snap).1.wait) s.log =
      min (s.patience + 5) (2 * s.originalPatience)
    rw [adaptedPatience, if_pos hcond]
  · intro hcond
    show adaptedPatience cfg s.originalPatience s.patience
      ((evaluateCore cfg s epoch raws vals snap).1.wait) s.log = s.patience
    rw [adaptedPatience, if_neg hcond]

/-- Witness for the C6 theorem: the first evaluate call of the patience-1
configuration, where wait resets to 0 and patience is unchanged. -/
theorem c6_witness :
    (c1Cfg.adaptivePatience = false →
      (stateAfter c1Cfg (initialState c1Cfg) 1 [("val_loss", 1)] 0).patience =
        (initialState c1Cfg).patience) ∧
    ((c1Cfg.adaptivePatience = true ∧
        7 * (initialState c1Cfg).patience <
          10 * (stateAfter c1Cfg (initialState c1Cfg) 1 [("val_loss", 1)] 0).wait ∧
        0 < countRecentImprovements c1Cfg.windowSize c1Cfg.monitorMetrics.length
          (initialState c1Cfg).log) →
      (stateAfter c1Cfg (initialState c1Cfg) 1 [("val_loss", 1)] 0).patience =
        min ((initialState c1Cfg).patience + 5)
          (2 * (initialState c1Cfg).originalPatience)) ∧
    (¬(c1Cfg.adaptivePatience = true ∧
        7 * (initialState c1Cfg).patience <
          10 * (stateAfter c1Cfg (initialState c1Cfg) 1 [("val_loss", 1)] 0).wait ∧
        0 < countRecentImprovements c1Cfg.windowSize c1Cfg.monitorMetrics.length
          (initialState c1Cfg).log) →
      (stateAfter c1Cfg (initialState c1Cfg) 1 [("val_loss", 1)] 0).patience =
        (initialState c1Cfg).patience) :=
  c6_adaptive_patience c1Cfg (initialState c1Cfg) 1 [("val_loss", 1)] 0
    (stateAfter c1Cfg (initialState c1Cfg) 1 [("val_loss", 1)] 0) Action.CONTINUE
    (by rfl)

/-- C8: calling evaluate with an epoch at or below a previously seen epoch
fails that call with the epoch-ordering error, and the state the caller
holds afterwards is exactly the state before the call: no field is
mutated. -/
theorem c8_stale_epoch_rejected (cfg : Config) (s : ControllerState) (epoch : Nat)
    (vals : List (String × ℚ)) (snap : Nat) (e0 : Nat)
    (hlast : s.lastEpoch = some e0) (hle : epoch ≤ e0) :
    evaluate cfg s epoch vals snap = .error .epochNotIncreasing ∧
    stateAfter cfg s epoch vals snap = s := by
  have hf : epochFresh s.lastEpoch epoch = false := by
    simp only [epochFresh, hlast, decide_eq_false_iff_not]
    omega
  have h1 : evaluate cfg s epoch vals snap = .error .epochNotIncreasing := by
    rw [evaluate, hf]
    simp
  exact ⟨h1, by simp only [stateAfter, h1]⟩

/-- State with an already-seen epoch, used to witness the C8 theorem. -/
def c8State : ControllerState := { initialState c1Cfg with lastEpoch := some 5 }

/-- Witness for the C8 theorem: epoch 3 after epoch 5 has been seen. -/
theorem c8_witness :
    evaluate c1Cfg c8State 3 [("val_loss", 1)] 0 = .error .epochNotIncreasing ∧
    stateAfter c1Cfg c8State 3 [("val_loss", 1)] 0 = c8State :=
  c8_stale_epoch_rejected c1Cfg c8State 3 [("val_loss", 1)] 0 5 (by rfl) (by decide)

/-- Configuration whose second epoch stops the run, used by the C9 witness:
patience 1, adaptive patience disabled. -/
def c9Cfg : Config :=
  { patience := 1, minDelta := mkRat 1 100000, windowSize := 1,
    monitorMetrics := [⟨"val_loss", true⟩],
    restoreBestWeights := true, adaptivePatience := false }

/-- State after the first C9 epoch (value 1, an improvement). -/
def c9S1 : ControllerState :=
  stateAfter c9Cfg (initialState c9Cfg) 1 [("val_loss", 1)] 1

/-- State after the second C9 epoch (value 10, no improvement, STOP). -/
def c9S2 : ControllerState := stateAfter c9Cfg c9S1 2 [("val_loss", 10)] 2

/-- C9: after an evaluate call has returned STOP, reading the best snapshot
through restore twice returns the same snapshot both times, and restore
leaves the controller state unchanged: the snapshot is not mutated,
consumed or dropped by being read. -/
theorem c9_restore_idempotent (cfg : Config) (s : ControllerState) (epoch : Nat)
    (vals : List (String × ℚ)) (snap : Nat) (s1 : ControllerState) (r : StopReason)
    (_hstop : evaluate cfg s epoch vals snap = .ok (s1, Action.STOP r)) :
    (restore s1).1 = (restore (restore s1).2).1 ∧
    (restore (restore s1).2).2 = s1 ∧ (restore s1).2 = s1 :=
  ⟨rfl, rfl, rfl⟩

/-- Witness for the C9 theorem: the stopping second epoch of the C9 run. -/
theorem c9_witness :
    (restore c9S2).1 = (restore (restore c9S2).2).1 ∧
    (restore (restore c9S2).2).2 = c9S2 ∧ (restore c9S2).2 = c9S2 :=
  c9_restore_idempotent c9Cfg c9S1 2 [("val_loss", 10)] 2 c9S2
    StopReason.patienceExhausted (by rfl)

/-- Drive the controller over a list of inputs keeping the held state across
failed calls, as the caller of evaluate does. -/
def foldState (cfg : Config) :
    ControllerState → List (Nat × List (String × ℚ)) → ControllerState
  | s, [] => s
  | s, (e, vals) :: rest => foldState cfg (stateAfter cfg s e vals e) rest

theorem stateAfter_patience_cases (cfg : Config) (s : ControllerState) (e : Nat)
    (vals : List (String × ℚ)) (snap : Nat) :
    (stateAfter cfg s e vals snap).originalPatience = s.originalPatience ∧
    ((stateAfter cfg s e vals snap).patience = s.patience ∨
      (stateAfter cfg s e vals snap).patience =
        min (s.patience + 5) (2 * s.originalPatience)) := by
  cases hev : evaluate cfg s e vals snap with
  | error err => simp [stateAfter, hev]
  | ok pair =>
    obtain ⟨s1, a⟩ := pair
    obtain ⟨raws, hcol, hfresh, hs, ha⟩ := evaluate_ok_inv hev
    subst hs
    simp only [stateAfter, hev]
    refine ⟨rfl, ?_⟩
    show adaptedPatience cfg s.originalPatience s.patience
        ((evaluateCore cfg s e raws vals snap).1.wait) s.log = s.patience ∨
      adaptedPatience cfg s.originalPatience s.patience
        ((evaluateCore cfg s e raws vals snap).1.wait) s.log =
        min (s.patience + 5) (2 * s.originalPatience)
    rw [adaptedPatience]
    split_ifs with hc
    · right
      rfl
    · left
      rfl

theorem stateAfter_patience_step (cfg : Config) (s : ControllerState) (e : Nat)
    (vals : List (String × ℚ)) (snap : Nat)
    (h1 : s.originalPatience ≤ s.patience)
    (h2 : s.patience ≤ 2 * s.originalPatience) :
    (stateAfter cfg s e vals snap).originalPatience = s.originalPatience ∧
    s.originalPatience ≤ (stateAfter cfg s e vals snap).patience ∧
    (stateAfter cfg s e vals snap).patience ≤ 2 * s.originalPatience ∧
    s.patience ≤ (stateAfter cfg s e vals snap).patience := by
  obtain ⟨ho, hp⟩ := stateAfter_patience_cases cfg s e vals snap
  refine ⟨ho, ?_, ?_, ?_⟩ <;> (rcases hp with h | h <;> rw [h] <;> omega)

theorem foldState_patience_invariant (cfg : Config) :
    ∀ (l : List (Nat × List (String × ℚ))) (s : ControllerState),
      s.originalPatience ≤ s.patience → s.patience ≤ 2 * s.originalPatience →
      (foldState cfg s l).originalPatience = s.originalPatience ∧
      s.originalPatience ≤ (foldState cfg s l).patience ∧
      (foldState cfg s l).patience ≤ 2 * s.originalPatience ∧
      s.patience ≤ (foldState cfg s l).patience := by
  intro l
  induction l with
  | nil => exact fun s h1 h2 => ⟨rfl, h1, h2, Nat.le_refl _⟩
  | cons x rest ih =>
    intro s h1 h2
    obtain ⟨e, vals⟩ := x
    obtain ⟨ho, ha, hb, hc⟩ := stateAfter_patience_step cfg s e vals e h1 h2
    obtain ⟨ho2, ha2, hb2, hc2⟩ := ih (stateAfter cfg s e vals e)
      (by omega) (by omega)
    simp only [foldState]
    exact ⟨by omega, by omega, by omega, by omega⟩

theorem foldState_append (cfg : Config) :
    ∀ (xs ys : List (Nat × List (String × ℚ))) (s : ControllerState),
      foldState cfg s (xs ++ ys) = foldState cfg (foldState cfg s xs) ys := by
  intro xs
  induction xs with
  | nil => intro ys s; rfl
  | cons x rest ih =>
    intro ys s
    obtain ⟨e, vals⟩ := x
    simp only [List.cons_append, foldState]
    exact ih ys _

/-- C10: along every input sequence driven from a freshly constructed
controller, the patience threshold stays between the original patience and
twice the original patience, and extending the sequence by further evaluate
calls never decreases the patience value. -/
theorem c10_patience_invariant (cfg : Config)
    (xs ys : List (Nat × List (String × ℚ))) :
    (foldState cfg (initialState cfg) xs).originalPatience ≤
      (foldState cfg (initialState cfg) xs).patience ∧
    (foldState cfg (initialState cfg) xs).patience ≤
      2 * (foldState cfg (initialState cfg) xs).originalPatience ∧
    (foldState cfg (initialState cfg) xs).patience ≤
      (foldState cfg (initialState cfg) (xs ++ ys)).patience := by
  have hinit2 : (initialState cfg).patience ≤ 2 * (initialState cfg).originalPatience := by
    show cfg.patience ≤ 2 * cfg.patience
    omega
  obtain ⟨ho, ha, hb, hc⟩ := foldState_patience_invariant cfg xs (initialState cfg)
    (Nat.le_refl _) hinit2
  obtain ⟨ho2, ha2, hb2, hc2⟩ := foldState_patience_invariant cfg ys
    (foldState cfg (initialState cfg) xs) (by omega) (by omega)
  rw [foldState_append]
  exact ⟨by omega, by omega, hc2⟩

end EarlyStopping
